import Mathlib

/-!
Shallow embedding of the object-counting post-processing and label-resolution
pipeline (src/src/pipeline/postprocess.py and src/src/pipeline/mapping.py).
Python strings are modelled as `List Char`, Python floats as `ℚ`, Python dicts
as Lean structures (one structure per stage of the pipeline, since each stage
adds a fixed set of keys), and the insertion-ordered Python `dict` used for the
reverse synonym mapping as an association list with overwrite-in-place
insertion.  The external zero-shot classifier (a `transformers` pipeline) is a
parameter of type `Classifier`; a raised exception is `Except.error`.
-/

set_option allowUnsafeReducibility true
attribute [local semireducible] Rat.add Rat.mul Rat.inv Rat.sub Rat.ofScientific

/-- Python `str` as a list of characters. -/
abbrev Label := List Char

/-- Coercion from a Lean string literal to a `Label`. -/
def lbl (s : String) : Label := s.toList

/-- Python `str.lower()` (ASCII case folding suffices for the labels used). -/
def lowerStr (s : Label) : Label := s.map Char.toLower

/-- Python `str.strip()`: remove leading and trailing whitespace. -/
def stripStr (s : Label) : Label :=
  ((s.dropWhile Char.isWhitespace).reverse.dropWhile Char.isWhitespace).reverse

/-- Boolean list-prefix test (helper for the substring test). -/
def isPrefixList : List Char → List Char → Bool
  | [], _ => true
  | _ :: _, [] => false
  | a :: ps, b :: ss => a == b && isPrefixList ps ss

/-- Python `needle in hay` on strings: `needle` occurs contiguously in `hay`. -/
def containsSub (needle : Label) : Label → Bool
  | [] => isPrefixList needle []
  | c :: rest => isPrefixList needle (c :: rest) || containsSub needle rest

/-- Label cleaning in `LabelMapper.map_synonym`:
`re.sub(r'[^a-zA-Z\s]', '', raw_label.lower().strip())`. -/
def cleanLabel (s : Label) : Label :=
  (stripStr (lowerStr s)).filter (fun c => c.isAlpha || c.isWhitespace)

/-- The module-level `SYNONYM_MAPPINGS` dictionary of mapping.py, in source
order (canonical label, list of synonyms). -/
def SYNONYM_MAPPINGS : List (Label × List Label) :=
  [ (lbl ("person"), [lbl ("human"), lbl ("people"), lbl ("man"), lbl ("woman"),
      lbl ("child"), lbl ("boy"), lbl ("girl"), lbl ("adult")]),
    (lbl ("dog"), [lbl ("puppy"), lbl ("canine"), lbl ("hound"), lbl ("mutt")]),
    (lbl ("cat"), [lbl ("kitten"), lbl ("feline"), lbl ("kitty")]),
    (lbl ("bird"), [lbl ("eagle"), lbl ("pigeon"), lbl ("sparrow"), lbl ("crow"),
      lbl ("seagull"), lbl ("hawk")]),
    (lbl ("car"), [lbl ("automobile"), lbl ("sedan"), lbl ("hatchback"),
      lbl ("coupe"), lbl ("vehicle")]),
    (lbl ("truck"), [lbl ("lorry"), lbl ("pickup"), lbl ("semi"), lbl ("trailer")]),
    (lbl ("bus"), [lbl ("coach"), lbl ("transit")]),
    (lbl ("motorcycle"), [lbl ("bike"), lbl ("motorbike"), lbl ("scooter")]),
    (lbl ("bicycle"), [lbl ("bike"), lbl ("cycle")]),
    (lbl ("bottle"), [lbl ("container"), lbl ("flask"), lbl ("jar")]),
    (lbl ("cup"), [lbl ("mug"), lbl ("glass"), lbl ("tumbler")]),
    (lbl ("chair"), [lbl ("seat"), lbl ("stool")]),
    (lbl ("table"), [lbl ("desk"), lbl ("surface")]),
    (lbl ("tree"), [lbl ("oak"), lbl ("pine"), lbl ("maple"), lbl ("palm"),
      lbl ("bush"), lbl ("shrub")]),
    (lbl ("flower"), [lbl ("rose"), lbl ("tulip"), lbl ("daisy"), lbl ("bloom")]),
    (lbl ("building"), [lbl ("house"), lbl ("structure"), lbl ("edifice"),
      lbl ("construction")]),
    (lbl ("road"), [lbl ("street"), lbl ("path"), lbl ("highway"), lbl ("avenue")]),
    (lbl ("bridge"), [lbl ("overpass"), lbl ("crossing")]),
    (lbl ("computer"), [lbl ("laptop"), lbl ("pc"), lbl ("desktop")]),
    (lbl ("phone"), [lbl ("smartphone"), lbl ("mobile"), lbl ("cellphone"),
      lbl ("iphone")]),
    (lbl ("tv"), [lbl ("television"), lbl ("monitor"), lbl ("screen"),
      lbl ("display")]) ]

/-- Insertion into an insertion-ordered dictionary, with Python semantics:
assigning to an existing key replaces the value in place, a new key is
appended at the end. -/
def dictInsert (d : List (Label × Label)) (k v : Label) : List (Label × Label) :=
  match d with
  | [] => [(k, v)]
  | (k0, v0) :: rest =>
    if k0 == k then (k0, v) :: rest else (k0, v0) :: dictInsert rest k v

/-- Dictionary lookup (first matching key). -/
def dictFind (d : List (Label × Label)) (k : Label) : Option Label :=
  match d with
  | [] => none
  | (k0, v0) :: rest => if k0 == k then some v0 else dictFind rest k

/-- The `build_reverse_mapping` function of mapping.py: for each entry, first
register the canonical form, then each synonym, each keyed by its lowercase
form, later writes overwriting earlier ones. -/
def build_reverse_mapping (syn : List (Label × List Label)) : List (Label × Label) :=
  syn.foldl
    (fun rev p =>
      p.2.foldl (fun r s => dictInsert r (lowerStr s) p.1)
        (dictInsert rev (lowerStr p.1) p.1))
    []

/-- The module-level `REVERSE_MAPPING` of mapping.py. -/
def REVERSE_MAPPING : List (Label × Label) :=
  build_reverse_mapping SYNONYM_MAPPINGS

/-- The partial-matching loop of `LabelMapper.map_synonym`: walk the reverse
mapping in insertion order and return the first canonical whose key is a
substring of the cleaned label or vice versa. -/
def partialLookup (entries : List (Label × Label)) (cleaned : Label) : Option Label :=
  match entries with
  | [] => none
  | (syn, canonical) :: rest =>
    if containsSub syn cleaned || containsSub cleaned syn then some canonical
    else partialLookup rest cleaned

/-- The `LabelMapper.map_synonym` method: clean the label, try an exact lookup
in `REVERSE_MAPPING`, then the partial-matching loop, else return the raw
label unchanged. -/
def map_synonym (raw_label : Label) : Label :=
  let cleaned := cleanLabel raw_label
  match dictFind REVERSE_MAPPING cleaned with
  | some c => c
  | none =>
    match partialLookup REVERSE_MAPPING cleaned with
    | some c => c
    | none => raw_label

example : map_synonym (lbl ("puppy")) = lbl ("dog") := by decide

example : map_synonym (lbl ("bike")) = lbl ("bicycle"):= by decide

/-- Bounding box `[x, y, w, h]` of postprocess.py, coordinates as rationals. -/
structure Box where
  x : ℚ
  y : ℚ
  w : ℚ
  h : ℚ
deriving DecidableEq, Repr

/-- One classification result entering `filter_segments`: its raw label and
confidence (the `raw_label` and `confidence` keys of the Python dict). -/
structure Classification where
  raw_label : Label
  confidence : ℚ
deriving DecidableEq, Repr

/-- A segment kept by `filter_segments`: the classification result copied
unchanged, plus the added `bbox` and `area` keys. -/
structure FilteredDet where
  cls : Classification
  bbox : Box
  area : ℚ
deriving DecidableEq, Repr

/-- Truthiness of the optional `max_area` argument: Python `if max_area`
is false for `None` and for `0`. -/
def maxAreaTruthy : Option ℚ → Bool
  | none => false
  | some m => m != 0

/-- The `filter_segments` function of postprocess.py: walk
`zip(classifications, bboxes)`; skip a pair when `confidence <
confidence_threshold`, when `area < min_area`, or when `max_area` is truthy
and `area > max_area`; otherwise emit the classification with its `bbox` and
`area = w*h` attached, preserving order. -/
def filter_segments (classifications : List Classification) (bboxes : List Box)
    (confidence_threshold : ℚ) (min_area : ℚ) (max_area : Option ℚ) :
    List FilteredDet :=
  go (classifications.zip bboxes)
where
  go : List (Classification × Box) → List FilteredDet
  | [] => []
  | (c, b) :: rest =>
    if c.confidence < confidence_threshold then go rest
    else
      let area := b.w * b.h
      if area < min_area then go rest
      else if maxAreaTruthy max_area && decide (area > max_area.getD 0) then go rest
      else ⟨c, b, area⟩ :: go rest

/-- The `calculate_iou` function of postprocess.py: convert both `(x,y,w,h)`
boxes to corner form, intersect, return `0` when the intersection is empty
or the union is not positive, else intersection over union. -/
def calculate_iou (box1 box2 : Box) : ℚ :=
  let x2_1 := box1.x + box1.w
  let y2_1 := box1.y + box1.h
  let x2_2 := box2.x + box2.w
  let y2_2 := box2.y + box2.h
  let x1_i := max box1.x box2.x
  let y1_i := max box1.y box2.y
  let x2_i := min x2_1 x2_2
  let y2_i := min y2_1 y2_2
  if x2_i ≤ x1_i ∨ y2_i ≤ y1_i then 0
  else
    let intersection := (x2_i - x1_i) * (y2_i - y1_i)
    let union := box1.w * box1.h + box2.w * box2.h - intersection
    if union > 0 then intersection / union else 0

/-- Stable insertion of a detection into a list already sorted by strictly
descending confidence: the element moves left past strictly lower-confidence
entries only, so equal-confidence entries keep their original relative order
— the behaviour of Python's stable `sorted(..., reverse=True)`. -/
def insertByConfDesc (d : FilteredDet) : List FilteredDet → List FilteredDet
  | [] => [d]
  | e :: rest =>
    if e.cls.confidence < d.cls.confidence then d :: e :: rest
    else e :: insertByConfDesc d rest

/-- Stable sort by descending confidence, the
`sorted(detections, key=lambda x: x.get(score_key, 0), reverse=True)` step
of `apply_nms` (with the default `score_key = 'confidence'`). -/
def sortByConfDesc (l : List FilteredDet) : List FilteredDet :=
  l.foldr insertByConfDesc []

/-- Survival predicate used by the suppression loop: a later detection `o`
stays undecided as long as its IoU with the accepted box does not exceed the
threshold (`apply_nms` suppresses on `iou > threshold`). -/
def survives (threshold : ℚ) (accepted : Box) (o : FilteredDet) : Bool :=
  !(decide (calculate_iou accepted o.bbox > threshold))

/-- The suppression loop of `apply_nms` on the sorted list: accept the first
not-yet-suppressed detection, mark every later detection whose IoU with it
exceeds the threshold as suppressed (here: drop it from the remainder by
filtering), and continue with the rest — the recursion is the loop of
postprocess.py with the `used` index set replaced by filtering the still
undecided suffix.  The `fuel` argument only makes the recursion structural
(the list strictly shrinks, so any `fuel ≥ length` computes the loop). -/
def nmsLoopF (threshold : ℚ) : Nat → List FilteredDet → List FilteredDet
  | 0, _ => []
  | _ + 1, [] => []
  | fuel + 1, d :: rest =>
    d :: nmsLoopF threshold fuel (rest.filter (survives threshold d.bbox))

/-- The `apply_nms` function of postprocess.py: empty input gives an empty
output; otherwise sort by descending confidence and run the greedy
suppression loop. -/
def apply_nms (detections : List FilteredDet) (threshold : ℚ) : List FilteredDet :=
  match detections with
  | [] => []
  | _ =>
    let sorted := sortByConfDesc detections
    nmsLoopF threshold sorted.length sorted

example :
    filter_segments [⟨lbl ("dog"), 9/10⟩, ⟨lbl ("cat"), 4/10⟩]
      [⟨0, 0, 30, 30⟩, ⟨0, 0, 40, 40⟩] (1/2) 500 none
      = [⟨⟨lbl ("dog"), 9/10⟩, ⟨0, 0, 30, 30⟩, 900⟩] := by decide

example : calculate_iou ⟨0, 0, 10, 10⟩ ⟨0, 0, 10, 10⟩ = 1 := by decide

example : calculate_iou ⟨0, 0, 10, 10⟩ ⟨100, 100, 5, 5⟩ = 0 := by decide

example :
    apply_nms [⟨⟨lbl ("a"), 1/2⟩, ⟨0, 0, 10, 10⟩, 100⟩,
               ⟨⟨lbl ("b"), 9/10⟩, ⟨1, 1, 10, 10⟩, 100⟩] (3/10)
      = [⟨⟨lbl ("b"), 9/10⟩, ⟨1, 1, 10, 10⟩, 100⟩] := by decide

/-- The value of the `mapping_method` key of a mapping result:
`'none' | 'direct_match' | 'synonym' | 'zero_shot'`. -/
inductive MappingMethod where
  | none
  | direct_match
  | synonym
  | zero_shot
deriving DecidableEq, Repr

/-- The possible `reason` strings of `LabelMapper.map_label` (plus the
`'No mapping needed'` default that `map_labels` substitutes when the key is
absent); the `mappingConfidenceTooLow` constructor carries the score that the
source interpolates into the f-string. -/
inductive MappingReason where
  | highConfidenceDirectMatch
  | beneficialZeroShotMapping
  | originalMoreConfident
  | mappingConfidenceTooLow (score : ℚ)
  | tooConfidentForMapping
  | noMappingNeeded
deriving DecidableEq, Repr

/-- The external zero-shot classification collaborator
(`self.zero_shot_classifier(raw_label, candidate_labels)`): given the query
and the candidate labels it either raises (`Except.error`) or returns the
ranked `(label, score)` list (the `result['labels']`/`result['scores']`
pair, already zipped). -/
abbrev Classifier := Label → List Label → Except Unit (List (Label × ℚ))

/-- The dictionary returned by `LabelMapper.zero_shot_map`:
`mapped_label`, `mapping_confidence`, and the optional `all_scores` map
(present only on a successful classifier call). -/
structure ZSResult where
  mapped_label : Label
  mapping_confidence : ℚ
  all_scores : Option (List (Label × ℚ))
deriving DecidableEq, Repr

/-- The memoization cache `self._cache` of `LabelMapper`, keyed by the
`(raw_label, candidate_labels)` pair (the source builds the key as
`f"{raw_label}_{hash(tuple(candidate_labels))}"`; the embedding keys by the
pair itself, which identifies the same entries up to hash collisions). -/
abbrev ZSCache := List ((Label × List Label) × ZSResult)

/-- Cache lookup (first matching key). -/
def cacheFind (c : ZSCache) (k : Label × List Label) : Option ZSResult :=
  match c with
  | [] => Option.none
  | (k0, r0) :: rest => if k0 = k then some r0 else cacheFind rest k

/-- Cache store, with Python dict-assignment semantics. -/
def cacheInsert (c : ZSCache) (k : Label × List Label) (r : ZSResult) : ZSCache :=
  match c with
  | [] => [(k, r)]
  | (k0, r0) :: rest =>
    if k0 = k then (k0, r) :: rest else (k0, r0) :: cacheInsert rest k r

/-- The `LabelMapper.zero_shot_map` method: when zero-shot is disabled (the
source checks both `self.use_zero_shot` and that the classifier loaded; the
two flags are merged into `use_zero_shot` here) return the raw label with
confidence `1.0`; otherwise consult the cache, then call the classifier.  A
raised exception, and the `IndexError` of `result['labels'][0]` on an empty
ranking, are caught by the `except` clause and degrade to the raw label with
confidence `1.0`, without caching; a successful result is cached. -/
def zero_shot_map (use_zero_shot : Bool) (classifier : Classifier) (cache : ZSCache)
    (raw_label : Label) (candidate_labels : List Label) : ZSResult × ZSCache :=
  if !use_zero_shot then (⟨raw_label, 1, Option.none⟩, cache)
  else
    match cacheFind cache (raw_label, candidate_labels) with
    | some r => (r, cache)
    | Option.none =>
      match classifier raw_label candidate_labels with
      | .error _ => (⟨raw_label, 1, Option.none⟩, cache)
      | .ok [] => (⟨raw_label, 1, Option.none⟩, cache)
      | .ok ((l, s) :: rest) =>
        let r : ZSResult := ⟨l, s, some ((l, s) :: rest)⟩
        (r, cacheInsert cache (raw_label, candidate_labels) r)

/-- The result dictionary assembled by `LabelMapper.map_label`. -/
structure MapResult where
  raw_label : Label
  synonym_mapped : Option Label
  zero_shot_mapped : Option Label
  final_label : Label
  mapping_method : MappingMethod
  mapping_confidence : ℚ
  mapping_applied : Bool
  reason : Option MappingReason
  all_scores : Option (List (Label × ℚ))
deriving DecidableEq, Repr

/-- Step 3 of `LabelMapper.map_label` (confidence-aware zero-shot mapping),
run on the result record after steps 1 and 2 fell through: only when
candidate labels were given and zero-shot is enabled; only for
`raw_confidence < 0.9`; adopt the zero-shot label when its confidence
reaches `mapping_threshold` and either beats `raw_confidence + 0.1` or
`raw_confidence < 0.6`, else record the corresponding reason. -/
def mapLabelZeroShotStep (use_zero_shot : Bool) (classifier : Classifier)
    (cache : ZSCache) (raw_label : Label) (candidate_labels : List Label)
    (mapping_threshold raw_confidence : ℚ) (result : MapResult) :
    MapResult × ZSCache :=
  if candidate_labels.isEmpty || !use_zero_shot then (result, cache)
  else if raw_confidence < 0.9 then
    let zs := zero_shot_map use_zero_shot classifier cache raw_label candidate_labels
    let result := {result with zero_shot_mapped := some zs.1.mapped_label}
    if zs.1.mapping_confidence ≥ mapping_threshold then
      if zs.1.mapping_confidence > raw_confidence + 0.1 ∨ raw_confidence < 0.6 then
        ({result with
            final_label := zs.1.mapped_label
            mapping_method := .zero_shot
            mapping_confidence := zs.1.mapping_confidence
            mapping_applied := true
            all_scores := some (zs.1.all_scores.getD [])
            reason := some .beneficialZeroShotMapping}, zs.2)
      else ({result with reason := some .originalMoreConfident}, zs.2)
    else
      ({result with reason := some (.mappingConfidenceTooLow zs.1.mapping_confidence)},
       zs.2)
  else ({result with reason := some .tooConfidentForMapping}, cache)

/-- The `LabelMapper.map_label` method: initialize the result record; step 1
returns the first candidate that is a case-insensitive substring of the raw
label when `raw_confidence > 0.8`; step 2 returns the synonym mapping when it
differs from the raw label; step 3 is `mapLabelZeroShotStep`.  An empty
candidate list stands for Python's `None`/`[]` (both falsy in
`if candidate_labels:`). -/
def map_label (use_zero_shot : Bool) (classifier : Classifier) (cache : ZSCache)
    (raw_label : Label) (candidate_labels : List Label)
    (mapping_threshold raw_confidence : ℚ) : MapResult × ZSCache :=
  let result : MapResult :=
    { raw_label := raw_label, synonym_mapped := Option.none,
      zero_shot_mapped := Option.none, final_label := raw_label,
      mapping_method := .none, mapping_confidence := raw_confidence,
      mapping_applied := false, reason := Option.none, all_scores := Option.none }
  let direct_matches := candidate_labels.filter
    (fun l => containsSub (lowerStr l) (lowerStr raw_label))
  if !candidate_labels.isEmpty && !direct_matches.isEmpty
      && decide (raw_confidence > 0.8) then
    ({result with
        final_label := direct_matches.headD raw_label
        mapping_method := .direct_match
        mapping_confidence := raw_confidence
        reason := some .highConfidenceDirectMatch}, cache)
  else
    let synonym_mapped := map_synonym raw_label
    let result := {result with synonym_mapped := some synonym_mapped}
    if synonym_mapped ≠ raw_label then
      ({result with
          final_label := synonym_mapped
          mapping_method := .synonym
          mapping_confidence := 1
          mapping_applied := true}, cache)
    else
      mapLabelZeroShotStep use_zero_shot classifier cache raw_label
        candidate_labels mapping_threshold raw_confidence result

/-- A detection after `map_labels`: the filtered detection plus the
`mapped_label`, `mapping_method`, `mapping_confidence`, `mapping_applied`,
`mapping_reason` and `mapping_details` keys it adds. -/
structure MappedDet where
  base : FilteredDet
  mapped_label : Label
  mapping_method : MappingMethod
  mapping_confidence : ℚ
  mapping_applied : Bool
  mapping_reason : MappingReason
  mapping_details : MapResult
deriving DecidableEq, Repr

/-- The `map_labels` function of mapping.py: map each detection's
`raw_label` with its confidence (the source reads `calibrated_confidence`
with the `confidence` key as fallback; no stage of the repository ever sets
`calibrated_confidence`, so the `confidence` key is what is read), threading
the singleton mapper's memoization cache through the list. -/
def map_labels (use_zero_shot : Bool) (classifier : Classifier)
    (detections : List FilteredDet) (candidate_labels : List Label)
    (mapping_threshold : ℚ) (cache : ZSCache) : List MappedDet × ZSCache :=
  match detections with
  | [] => ([], cache)
  | d :: rest =>
    let mr := map_label use_zero_shot classifier cache d.cls.raw_label
      candidate_labels mapping_threshold d.cls.confidence
    let md : MappedDet :=
      ⟨d, mr.1.final_label, mr.1.mapping_method, mr.1.mapping_confidence,
        mr.1.mapping_applied, mr.1.reason.getD .noMappingNeeded, mr.1⟩
    let ms := map_labels use_zero_shot classifier rest candidate_labels
      mapping_threshold mr.2
    (md :: ms.1, ms.2)

example :
    (map_label true (fun _ _ => .error ()) []
      (lbl ("red sports car")) [lbl ("car"), lbl ("tree")] 0.5
      0.95).1.final_label = lbl ("car") := by decide

example :
    (map_label true (fun _ _ => .error ()) []
      (lbl ("puppy")) [] 0.5 1).1.final_label = lbl ("dog") := by decide

/-- Sum of a list of rationals. -/
def listSum (l : List ℚ) : ℚ := l.foldl (· + ·) 0

/-- Python `max` over a list of rationals (`0` for the empty list, matching
the `if confidences else 0` guards of the callers). -/
def listMax : List ℚ → ℚ
  | [] => 0
  | x :: xs => xs.foldl max x

/-- Python `min` over a list of rationals (`0` for the empty list). -/
def listMin : List ℚ → ℚ
  | [] => 0
  | x :: xs => xs.foldl min x

/-- The `np.mean` of a list of rationals (`0` for the empty list, matching
the guards of the callers). -/
def listMean (l : List ℚ) : ℚ :=
  if l.isEmpty then 0 else listSum l / l.length

/-- The square of `np.std` (population standard deviation).  The standard
deviation itself is irrational over `ℚ`, so the embedding carries its
square; two statistics blocks agree on the std exactly when they agree on
its square. -/
def listVarianceSq (l : List ℚ) : ℚ :=
  if l.isEmpty then 0
  else listSum (l.map (fun a => (a - listMean l) ^ 2)) / l.length

/-- Python `round(q, digits)` on rationals.  Mathlib `round` rounds half
away from zero while Python rounds half to even; the two agree everywhere
except at exact half-way ties, which no value in this development hits. -/
def roundTo (digits : ℕ) (q : ℚ) : ℚ :=
  (round (q * 10 ^ digits) : ℤ) / 10 ^ digits

/-- The class-label key that `group_by_class` (and the other aggregation
functions) extract: `detection.get('mapped_label', detection.get('raw_label',
'unknown'))`; after `map_labels` the `mapped_label` key is always present. -/
def classKey (d : MappedDet) : Label := d.mapped_label

/-- Append a detection to its class group, Python-dict style: the first
occurrence of a label creates its group at the end, later ones append to
the existing group in place. -/
def groupInsert (groups : List (Label × List MappedDet)) (k : Label)
    (d : MappedDet) : List (Label × List MappedDet) :=
  match groups with
  | [] => [(k, [d])]
  | (k0, ds) :: rest =>
    if k0 = k then (k0, ds ++ [d]) :: rest
    else (k0, ds) :: groupInsert rest k d

/-- The `group_by_class` function of postprocess.py: group detections by
their class label, preserving both insertion order of groups and order
within each group. -/
def group_by_class (detections : List MappedDet) : List (Label × List MappedDet) :=
  detections.foldl (fun gs d => groupInsert gs (classKey d) d) []

/-- The per-class statistics dictionary of `calculate_class_statistics`. -/
structure ClassStats where
  count : ℕ
  avg_confidence : ℚ
  max_confidence : ℚ
  min_confidence : ℚ
  total_area : ℚ
  avg_area : ℚ
deriving DecidableEq, Repr

/-- Statistics of one class group (`calculate_class_statistics` body). -/
def classStatsOf (ds : List MappedDet) : ClassStats :=
  let confidences := ds.map (fun d => d.base.cls.confidence)
  let areas := ds.map (fun d => d.base.area)
  { count := ds.length
    avg_confidence := listMean confidences
    max_confidence := listMax confidences
    min_confidence := listMin confidences
    total_area := listSum areas
    avg_area := listMean areas }

/-- The `calculate_class_statistics` function of postprocess.py. -/
def calculate_class_statistics (grouped : List (Label × List MappedDet)) :
    List (Label × ClassStats) :=
  grouped.map (fun g => (g.1, classStatsOf g.2))

/-- Lookup in the class-statistics dictionary. -/
def statsFind (stats : List (Label × ClassStats)) (k : Label) : Option ClassStats :=
  match stats with
  | [] => Option.none
  | (k0, s) :: rest => if k0 = k then some s else statsFind rest k

/-- The `bbox_formats` dictionary added by `aggregate_results`. -/
structure BboxFormats where
  xywh : List ℚ
  xyxy : List ℚ
  center : List ℚ
deriving DecidableEq, Repr

/-- A detection after `aggregate_results`: the mapped detection plus the
`class_stats`, `relative_confidence` and `bbox_formats` keys it adds
(`class_stats` is optional in the source — `if label in class_stats` — and
`bbox_formats` is added whenever the `bbox` key exists, which it always does
after `filter_segments`). -/
structure EnrichedDet where
  det : MappedDet
  class_stats : Option ClassStats
  relative_confidence : ℚ
  bbox_formats : BboxFormats
deriving DecidableEq, Repr

/-- The `aggregate_results` function of postprocess.py. -/
def aggregate_results (detections : List MappedDet) : List EnrichedDet :=
  if detections.isEmpty then []
  else
    let grouped := group_by_class detections
    let class_stats := calculate_class_statistics grouped
    detections.map (fun d =>
      let cs := statsFind class_stats (classKey d)
      let class_avg_conf := (cs.map (fun s => s.avg_confidence)).getD 0
      let conf := d.base.cls.confidence
      let b := d.base.bbox
      { det := d
        class_stats := cs
        relative_confidence := if class_avg_conf > 0 then conf / class_avg_conf else 1
        bbox_formats :=
          ⟨[b.x, b.y, b.w, b.h],
           [b.x, b.y, b.x + b.w, b.y + b.h],
           [b.x + b.w / 2, b.y + b.h / 2, b.w, b.h]⟩ })

/-- The `confidence_distribution` dictionary: counts of detections with
confidence `> 0.8`, in `[0.5, 0.8]`, and `< 0.5`. -/
structure ConfDistribution where
  high : ℕ
  medium : ℕ
  low : ℕ
deriving DecidableEq, Repr

/-- Confidence distribution of a list of confidences, as computed by
`create_summary_report` and `generate_quality_flags`. -/
def confDistributionOf (confidences : List ℚ) : ConfDistribution :=
  ⟨(confidences.filter (fun c => decide (c > 0.8))).length,
   (confidences.filter (fun c => decide (0.5 ≤ c) && decide (c ≤ 0.8))).length,
   (confidences.filter (fun c => decide (c < 0.5))).length⟩

/-- The return value of `create_summary_report`: the early-return dictionary
for an empty detection list, or the full report. -/
inductive Summary where
  | empty
  | report (total_objects : ℕ) (unique_classes : ℕ)
      (classes_detected : List Label) (class_distribution : List (Label × ℕ))
      (avg_confidence : ℚ) (confidence_distribution : ConfDistribution)
      (processing_efficiency : ℚ) (quality_score : ℚ)
      (class_statistics : List (Label × ClassStats))
deriving DecidableEq, Repr

/-- The `create_summary_report` function of postprocess.py. -/
def create_summary_report (detections : List MappedDet)
    (original_segments_count : ℕ) : Summary :=
  if detections.isEmpty then .empty
  else
    let grouped := group_by_class detections
    let class_stats := calculate_class_statistics grouped
    let total_objects := detections.length
    let confidences := detections.map (fun d => d.base.cls.confidence)
    let avg_confidence := listMean confidences
    let efficiency :=
      if original_segments_count > 0 then
        (total_objects : ℚ) / original_segments_count * 100
      else 0
    let high_conf_count := (confidences.filter (fun c => decide (c > 0.8))).length
    let quality_score :=
      if total_objects > 0 then (high_conf_count : ℚ) / total_objects * 100 else 0
    .report total_objects grouped.length (grouped.map (fun g => g.1))
      (grouped.map (fun g => (g.1, g.2.length)))
      (roundTo 3 avg_confidence)
      (confDistributionOf confidences)
      (roundTo 1 efficiency) (roundTo 1 quality_score) class_stats

/-- The flag strings emitted by `generate_quality_flags`. -/
inductive QualityFlag where
  | highConfidenceDetections
  | lowConfidenceDetections
  | imbalancedClassDistribution
  | highDetectionDensity
  | lowDetectionDensity
  | highSizeVariation
  | manySmallObjects
  | manyLargeObjects
deriving DecidableEq, Repr

/-- The recommendation strings emitted by `generate_quality_flags`. -/
inductive Recommendation where
  | lowerThresholdsOrImproveModel
  | classImbalance
  | stricterFilteringOrNMS
  | lowerConfidenceThresholds
  | increaseMinimumArea
  | verifyLargeObjects
  | reviewPipelineParameters
deriving DecidableEq, Repr

/-- The `overall_quality` strings of the nonempty branch of
`generate_quality_flags`. -/
inductive QualityLevel where
  | EXCELLENT
  | GOOD
  | FAIR
  | POOR
deriving DecidableEq, Repr

/-- The `area_stats` block of the quality statistics; `stdSq` is the square
of the `np.std` entry (see `listVarianceSq`). -/
structure AreaStats where
  mean : ℚ
  stdSq : ℚ
  count : ℕ
deriving DecidableEq, Repr

/-- The `quality_metrics` dictionary of `generate_quality_flags`. -/
structure QualityMetrics where
  confidence_quality : ℚ
  overall_score : ℚ
deriving DecidableEq, Repr

/-- The `statistics` block of `generate_quality_flags`. -/
structure QualityStatistics where
  total_detections : ℕ
  confidence_distribution : ConfDistribution
  class_distribution : List (Label × ℕ)
  area_stats : AreaStats
deriving DecidableEq, Repr

/-- The return value of `generate_quality_flags`: the early return for an
empty detection list (`overall_quality = 'NO_DETECTIONS'`), or the full
assessment. -/
inductive QualityReport where
  | noDetections
  | report (overall_quality : QualityLevel) (quality_score : ℚ)
      (quality_metrics : QualityMetrics) (flags : List QualityFlag)
      (recommendations : List Recommendation) (statistics : QualityStatistics)
deriving DecidableEq, Repr

/-- Python `collections.Counter` over labels: counts keyed by label in
first-occurrence order. -/
def countsInsert (counts : List (Label × ℕ)) (k : Label) : List (Label × ℕ) :=
  match counts with
  | [] => [(k, 1)]
  | (k0, n) :: rest =>
    if k0 = k then (k0, n + 1) :: rest else (k0, n) :: countsInsert rest k

/-- Counter of a list of labels. -/
def countsOf (classes : List Label) : List (Label × ℕ) :=
  classes.foldl countsInsert []

/-- Python `max` over the counter values (the counter is nonempty whenever
this is evaluated). -/
def listMaxNat : List ℕ → ℕ
  | [] => 0
  | x :: xs => xs.foldl max x

/-- Python `min` over the counter values. -/
def listMinNat : List ℕ → ℕ
  | [] => 0
  | x :: xs => xs.foldl min x

/-- The `generate_quality_flags` function of postprocess.py.  Its
`confidence_thresholds` parameter is read nowhere in the body and is
omitted.  The size-variation test `np.std(areas)/np.mean(areas) > 2` is
encoded as `stdSq > 4 * mean²`, equivalent since every collected area is
positive (hence the mean is positive and the std non-negative). -/
def generate_quality_flags (detections : List MappedDet) : QualityReport :=
  if detections.isEmpty then .noDetections
  else
    let confidences := detections.map (fun d => d.base.cls.confidence)
    let classes := detections.map classKey
    let areas := (detections.map (fun d => d.base.area)).filter
      (fun a => decide (a > 0))
    let dist := confDistributionOf confidences
    let confidence_quality := (dist.high : ℚ) / confidences.length
    let flags1 : List QualityFlag :=
      if confidence_quality > 0.7 then [.highConfidenceDetections]
      else if confidence_quality < 0.3 then [.lowConfidenceDetections]
      else []
    let recs1 : List Recommendation :=
      if confidence_quality > 0.7 then []
      else if confidence_quality < 0.3 then [.lowerThresholdsOrImproveModel]
      else []
    let class_counts := countsOf classes
    let max_class_count := listMaxNat (class_counts.map (fun p => p.2))
    let min_class_count := listMinNat (class_counts.map (fun p => p.2))
    let imbalanced := decide ((max_class_count : ℚ) / min_class_count > 5)
    let flags2 : List QualityFlag :=
      if imbalanced then [.imbalancedClassDistribution] else []
    let recs2 : List Recommendation :=
      if imbalanced then [.classImbalance] else []
    let total_detections := detections.length
    let flags3 : List QualityFlag :=
      if total_detections > 50 then [.highDetectionDensity]
      else if total_detections < 5 then [.lowDetectionDensity]
      else []
    let recs3 : List Recommendation :=
      if total_detections > 50 then [.stricterFilteringOrNMS]
      else if total_detections < 5 then [.lowerConfidenceThresholds]
      else []
    let very_small := (areas.filter (fun a => decide (a < 500))).length
    let very_large := (areas.filter (fun a => decide (a > 50000))).length
    let flags4 : List QualityFlag :=
      if areas.isEmpty then []
      else
        (if listVarianceSq areas > 4 * listMean areas ^ 2
         then [.highSizeVariation] else [])
        ++ (if (very_small : ℚ) / areas.length > 0.3
            then [.manySmallObjects] else [])
        ++ (if (very_large : ℚ) / areas.length > 0.2
            then [.manyLargeObjects] else [])
    let recs4 : List Recommendation :=
      if areas.isEmpty then []
      else
        (if (very_small : ℚ) / areas.length > 0.3
         then [.increaseMinimumArea] else [])
        ++ (if (very_large : ℚ) / areas.length > 0.2
            then [.verifyLargeObjects] else [])
    let quality_score :=
      confidence_quality * 0.4
        + min 1 ((total_detections : ℚ) / 20) * 0.3
        + (1 - min 1 ((class_counts.length : ℚ) / 10)) * 0.3
    let overall_quality : QualityLevel :=
      if quality_score > 0.8 then .EXCELLENT
      else if quality_score > 0.6 then .GOOD
      else if quality_score > 0.4 then .FAIR
      else .POOR
    let recs5 : List Recommendation :=
      if quality_score > 0.8 ∨ quality_score > 0.6 ∨ quality_score > 0.4 then []
      else [.reviewPipelineParameters]
    .report overall_quality (roundTo 3 quality_score)
      ⟨confidence_quality, quality_score⟩
      (flags1 ++ flags2 ++ flags3 ++ flags4)
      (recs1 ++ recs2 ++ recs3 ++ recs4 ++ recs5)
      ⟨total_detections, dist, class_counts,
        ⟨listMean areas, listVarianceSq areas, areas.length⟩⟩

/-- Modelled from the spec: the repository has no single orchestrator that
composes the stages (each stage function exists in
src/src/pipeline/postprocess.py and mapping.py, but nothing under src/
calls them in sequence); the composition below follows the data flow of the
spec — RawSegment[] → Filter → NMS → Label Resolver → Aggregator → Quality
Assessor → AggregateReport — with each stage being the source function
embedded above, and the label mapper's memoization cache threaded through
as the one piece of cross-run state. -/
structure PipelineConfig where
  confidence_threshold : ℚ
  min_area : ℚ
  max_area : Option ℚ
  iou_threshold : ℚ
  candidate_labels : List Label
  mapping_threshold : ℚ
  use_zero_shot : Bool
deriving DecidableEq, Repr

/-- The final report assembled from the aggregation, summary and quality
stages. -/
structure AggregateReport where
  detections : List EnrichedDet
  summary : Summary
  quality : QualityReport
deriving DecidableEq, Repr

/-- Modelled from the spec (see `PipelineConfig`): one pipeline run over one
image's classifications and boxes, returning the report and the mapper
cache it leaves behind. -/
def runPipeline (cfg : PipelineConfig) (classifier : Classifier)
    (classifications : List Classification) (bboxes : List Box)
    (cache : ZSCache) : AggregateReport × ZSCache :=
  let filtered := filter_segments classifications bboxes
    cfg.confidence_threshold cfg.min_area cfg.max_area
  let deduped := apply_nms filtered cfg.iou_threshold
  let mapped := map_labels cfg.use_zero_shot classifier deduped
    cfg.candidate_labels cfg.mapping_threshold cache
  (⟨aggregate_results mapped.1,
    create_summary_report mapped.1 classifications.length,
    generate_quality_flags mapped.1⟩, mapped.2)

/-- Helper: `calculate_iou` of a non-degenerate box with itself is `1`. -/
theorem calculate_iou_self (B : Box) (hw : 0 < B.w) (hh : 0 < B.h) :
    calculate_iou B B = 1 := by
  simp only [calculate_iou, min_self, max_self]
  rw [if_neg (by push_neg; constructor <;> linarith)]
  have harea : (B.x + B.w - B.x) * (B.y + B.h - B.y) = B.w * B.h := by ring
  rw [harea, if_pos (by nlinarith)]
  have : B.w * B.h + B.w * B.h - B.w * B.h = B.w * B.h := by ring
  rw [this, div_self (by positivity)]

/-- Helper: `calculate_iou` is symmetric in its two boxes. -/
theorem calculate_iou_comm (A B : Box) :
    calculate_iou A B = calculate_iou B A := by
  simp only [calculate_iou]
  rw [min_comm (A.x + A.w) (B.x + B.w), min_comm (A.y + A.h) (B.y + B.h),
    max_comm A.x B.x, max_comm A.y B.y, add_comm (A.w * A.h) (B.w * B.h)]

/-- Helper: `calculate_iou` is non-negative and at most `1`. -/
theorem calculate_iou_mem_unit (A B : Box) :
    0 ≤ calculate_iou A B ∧ calculate_iou A B ≤ 1 := by
  simp only [calculate_iou]
  split_ifs with h1 h2
  · exact ⟨le_rfl, zero_le_one⟩
  · push_neg at h1
    obtain ⟨hx, hy⟩ := h1
    have hdx : 0 < min (A.x + A.w) (B.x + B.w) - max A.x B.x := by linarith
    have hdy : 0 < min (A.y + A.h) (B.y + B.h) - max A.y B.y := by linarith
    have hdxA : min (A.x + A.w) (B.x + B.w) - max A.x B.x ≤ A.w := by
      have := min_le_left (A.x + A.w) (B.x + B.w)
      have := le_max_left A.x B.x
      linarith
    have hdxB : min (A.x + A.w) (B.x + B.w) - max A.x B.x ≤ B.w := by
      have := min_le_right (A.x + A.w) (B.x + B.w)
      have := le_max_right A.x B.x
      linarith
    have hdyA : min (A.y + A.h) (B.y + B.h) - max A.y B.y ≤ A.h := by
      have := min_le_left (A.y + A.h) (B.y + B.h)
      have := le_max_left A.y B.y
      linarith
    have hdyB : min (A.y + A.h) (B.y + B.h) - max A.y B.y ≤ B.h := by
      have := min_le_right (A.y + A.h) (B.y + B.h)
      have := le_max_right A.y B.y
      linarith
    have hiA : (min (A.x + A.w) (B.x + B.w) - max A.x B.x)
        * (min (A.y + A.h) (B.y + B.h) - max A.y B.y) ≤ A.w * A.h := by
      nlinarith
    have hiB : (min (A.x + A.w) (B.x + B.w) - max A.x B.x)
        * (min (A.y + A.h) (B.y + B.h) - max A.y B.y) ≤ B.w * B.h := by
      nlinarith
    constructor
    · exact div_nonneg (by nlinarith) (le_of_lt h2)
    · rw [div_le_one h2]
      linarith
  · exact ⟨le_rfl, zero_le_one⟩

/-- C4: for boxes given as `(x, y, w, h)` with non-negative components, the
IoU of a non-degenerate box with itself is `1`, the IoU is symmetric, and it
always lies in `[0, 1]`. -/
theorem iou_identity_symmetry_bounds (A B : Box)
    (hA : 0 ≤ A.x ∧ 0 ≤ A.y ∧ 0 ≤ A.w ∧ 0 ≤ A.h)
    (hB : 0 ≤ B.x ∧ 0 ≤ B.y ∧ 0 ≤ B.w ∧ 0 ≤ B.h) :
    (0 < B.w → 0 < B.h → calculate_iou B B = 1)
      ∧ calculate_iou A B = calculate_iou B A
      ∧ 0 ≤ calculate_iou A B ∧ calculate_iou A B ≤ 1 :=
  ⟨fun hw hh => calculate_iou_self B hw hh, calculate_iou_comm A B,
    (calculate_iou_mem_unit A B).1, (calculate_iou_mem_unit A B).2⟩

/-- Witness for C4 at two concrete boxes. -/
theorem iou_identity_symmetry_bounds_witness :
    (0 < (10 : ℚ) → 0 < (10 : ℚ) →
        calculate_iou ⟨2, 2, 10, 10⟩ ⟨2, 2, 10, 10⟩ = 1)
      ∧ calculate_iou ⟨0, 0, 4, 4⟩ ⟨2, 2, 10, 10⟩
          = calculate_iou ⟨2, 2, 10, 10⟩ ⟨0, 0, 4, 4⟩
      ∧ 0 ≤ calculate_iou ⟨0, 0, 4, 4⟩ ⟨2, 2, 10, 10⟩
      ∧ calculate_iou ⟨0, 0, 4, 4⟩ ⟨2, 2, 10, 10⟩ ≤ 1 :=
  iou_identity_symmetry_bounds ⟨0, 0, 4, 4⟩ ⟨2, 2, 10, 10⟩
    (by norm_num) (by norm_num)

/-- Helper: stable insertion produces a permutation of consing. -/
theorem insertByConfDesc_perm (d : FilteredDet) (l : List FilteredDet) :
    (insertByConfDesc d l).Perm (d :: l) := by
  induction l with
  | nil => simp [insertByConfDesc]
  | cons e rest ih =>
    simp only [insertByConfDesc]
    split
    · exact List.Perm.refl _
    · exact (ih.cons e).trans (List.Perm.swap d e rest)

/-- Helper: the descending-confidence sort permutes its input. -/
theorem sortByConfDesc_perm (l : List FilteredDet) :
    (sortByConfDesc l).Perm l := by
  induction l with
  | nil => exact List.Perm.refl _
  | cons x rest ih =>
    exact (insertByConfDesc_perm x (sortByConfDesc rest)).trans (ih.cons x)

/-- Helper: the suppression loop yields a sublist of its input. -/
theorem nmsLoopF_sublist (t : ℚ) :
    ∀ (fuel : ℕ) (l : List FilteredDet), (nmsLoopF t fuel l).Sublist l := by
  intro fuel
  induction fuel with
  | zero => intro l; simp [nmsLoopF]
  | succ n ih =>
    intro l
    cases l with
    | nil => simp [nmsLoopF]
    | cons d rest =>
      simp only [nmsLoopF]
      exact List.Sublist.cons₂ d ((ih _).trans (List.filter_sublist _))

/-- Helper: every pair in the suppression loop's output, in output order,
has IoU at most the threshold. -/
theorem nmsLoopF_pairwise (t : ℚ) :
    ∀ (fuel : ℕ) (l : List FilteredDet),
      (nmsLoopF t fuel l).Pairwise
        (fun a b => calculate_iou a.bbox b.bbox ≤ t) := by
  intro fuel
  induction fuel with
  | zero => intro l; simp [nmsLoopF]
  | succ n ih =>
    intro l
    cases l with
    | nil => simp [nmsLoopF]
    | cons d rest =>
      simp only [nmsLoopF]
      refine List.pairwise_cons.mpr ⟨?_, ih _⟩
      intro y hy
      have hmem : y ∈ rest.filter (survives t d.bbox) :=
        (nmsLoopF_sublist t n _).subset hy
      have hsurv := List.of_mem_filter hmem
      simp only [survives, Bool.not_eq_true', decide_eq_false_iff_not, not_lt] at hsurv
      exact hsurv

/-- C3: for every input detection list and every IoU threshold, the NMS
output consists of input detections (hence has at most the input's size),
and no two distinct detections in the output have IoU strictly greater than
the threshold. -/
theorem nms_subset_and_no_overlapping_pair
    (detections : List FilteredDet) (threshold : ℚ) :
    (∀ d ∈ apply_nms detections threshold, d ∈ detections)
      ∧ (apply_nms detections threshold).length ≤ detections.length
      ∧ ∀ a ∈ apply_nms detections threshold,
          ∀ b ∈ apply_nms detections threshold, a ≠ b →
            ¬ calculate_iou a.bbox b.bbox > threshold := by
  cases detections with
  | nil =>
    refine ⟨?_, ?_, ?_⟩ <;> simp [apply_nms]
  | cons d0 rest =>
    have hperm := sortByConfDesc_perm (d0 :: rest)
    have hsub := nmsLoopF_sublist threshold
      (sortByConfDesc (d0 :: rest)).length (sortByConfDesc (d0 :: rest))
    have hout : apply_nms (d0 :: rest) threshold
        = nmsLoopF threshold (sortByConfDesc (d0 :: rest)).length
            (sortByConfDesc (d0 :: rest)) := rfl
    have hpw := nmsLoopF_pairwise threshold
      (sortByConfDesc (d0 :: rest)).length (sortByConfDesc (d0 :: rest))
    refine ⟨?_, ?_, ?_⟩
    · intro d hd
      rw [hout] at hd
      exact hperm.subset (hsub.subset hd)
    · rw [hout]
      exact hsub.length_le.trans (le_of_eq hperm.length_eq)
    · intro a ha b hb hab
      rw [hout] at ha hb
      rw [gt_iff_lt, not_lt]
      refine List.Pairwise.forall ?_ hpw ha hb hab
      intro x y hxy
      rw [calculate_iou_comm]
      exact hxy

/-- The survival predicate of `filter_segments`, read off the three `skip`
branches of the loop: confidence at least the threshold, area at least
`min_area`, and not (`max_area` truthy and area above it). -/
def keepSegment (confidence_threshold min_area : ℚ) (max_area : Option ℚ)
    (p : Classification × Box) : Bool :=
  decide (confidence_threshold ≤ p.1.confidence)
    && decide (min_area ≤ p.2.w * p.2.h)
    && !(maxAreaTruthy max_area && decide (p.2.w * p.2.h > max_area.getD 0))

/-- Helper: `filter_segments` is the filter of the zipped input by
`keepSegment`, each survivor mapped to itself with `bbox` and `area`
attached, in input order. -/
theorem filter_segments_eq (classifications : List Classification)
    (bboxes : List Box) (ct minA : ℚ) (maxA : Option ℚ) :
    filter_segments classifications bboxes ct minA maxA
      = ((classifications.zip bboxes).filter (keepSegment ct minA maxA)).map
          (fun p => ⟨p.1, p.2, p.2.w * p.2.h⟩) := by
  show filter_segments.go ct minA maxA (classifications.zip bboxes) = _
  induction classifications.zip bboxes with
  | nil => rfl
  | cons p rest ih =>
    obtain ⟨c, b⟩ := p
    simp only [filter_segments.go, keepSegment, List.filter_cons]
    by_cases h1 : c.confidence < ct
    · rw [if_pos h1]
      have : ¬ ct ≤ c.confidence := not_le.mpr h1
      simp [this, ih]
    · rw [if_neg h1]
      have h1' : ct ≤ c.confidence := not_lt.mp h1
      by_cases h2 : b.w * b.h < minA
      · have : ¬ minA ≤ b.w * b.h := not_le.mpr h2
        simp [h2, this, h1', ih]
      · have h2' : minA ≤ b.w * b.h := not_lt.mp h2
        by_cases h3 : maxAreaTruthy maxA && decide (b.w * b.h > maxA.getD 0)
        · simp [h2, h3, h1', h2', ih]
        · simp [h2, h3, h1', h2', ih]

/-- C2 (amended): a segment is dropped exactly when its confidence is below
the threshold, its area is below `min_area`, or `max_area` is truthy (set
and nonzero — Python's `if max_area` is false for `max_area = 0`) and the
area exceeds it; survivors are emitted unchanged with `bbox` and `area`
added, in input order. -/
theorem filter_drops_exactly_below_threshold_or_area_bounds
    (classifications : List Classification) (bboxes : List Box)
    (ct minA : ℚ) (maxA : Option ℚ) :
    filter_segments classifications bboxes ct minA maxA
      = ((classifications.zip bboxes).filter (fun p =>
            !(decide (p.1.confidence < ct) || decide (p.2.w * p.2.h < minA)
              || (maxAreaTruthy maxA && decide (p.2.w * p.2.h > maxA.getD 0))))).map
          (fun p => ⟨p.1, p.2, p.2.w * p.2.h⟩) := by
  rw [filter_segments_eq]
  congr 1
  apply List.filter_congr
  intro p _
  rcases lt_or_le p.1.confidence ct with h1 | h1
  · simp [keepSegment, h1, not_le.mpr h1]
  · rcases lt_or_le (p.2.w * p.2.h) minA with h2 | h2
    · simp [keepSegment, h1, h2, not_le.mpr h2, not_lt.mpr h1]
    · simp [keepSegment, h1, h2, not_lt.mpr h1, not_lt.mpr h2]

/-- Counterexample to C2 as stated: with `max_area = 0` the claim counts the
bound as set, so a segment of area `10000 > 0` should be dropped; the code
treats `0` as falsy and keeps it. -/
theorem filter_maxarea_zero_counterexample :
    filter_segments [⟨lbl ("dog"), 0.9⟩] [⟨0, 0, 100, 100⟩] 0.7 500 (some 0)
        = [⟨⟨lbl ("dog"), 0.9⟩, ⟨0, 0, 100, 100⟩, 10000⟩]
      ∧ (some (0 : ℚ)).isSome = true
      ∧ ((100 : ℚ) * 100 > (some (0 : ℚ)).getD 0) := by
  refine ⟨by decide, rfl, by norm_num⟩

/-- Modelled from the spec (claim C1): the per-segment confidence
calibration of spec §4.1 — multiply by `0.7` if `area < 1000`, by `0.8` if
`area > 50000`, by `0.6` if the raw label matches the fixed list of
historically-biased classes (case-insensitive substring match, taken in
either direction), clamped to `[0, 1]`.  No such computation exists
anywhere in the repository source; the biased-class list is therefore a
parameter. -/
def calibrate_spec (biased : List Label) (raw_label : Label)
    (rawConf area : ℚ) : ℚ :=
  let c1 := if area < 1000 then rawConf * 0.7 else rawConf
  let c2 := if area > 50000 then c1 * 0.8 else c1
  let c3 := if biased.any (fun b =>
      containsSub (lowerStr b) (lowerStr raw_label)
        || containsSub (lowerStr raw_label) (lowerStr b)) then c2 * 0.6 else c2
  min 1 (max 0 c3)

/-- Modelled from the spec (claim C1): the filter-and-calibrate stage the
claim describes — calibrate each segment, then apply the confidence
threshold to the calibrated value, keeping survivors with their calibrated
confidence. -/
def filter_calibrate_spec (biased : List Label)
    (classifications : List Classification) (bboxes : List Box)
    (confidence_threshold min_area : ℚ) (max_area : Option ℚ) :
    List FilteredDet :=
  ((classifications.zip bboxes).filterMap (fun p =>
    let area := p.2.w * p.2.h
    let cal := calibrate_spec biased p.1.raw_label p.1.confidence area
    if cal < confidence_threshold then Option.none
    else if area < min_area then Option.none
    else if maxAreaTruthy max_area && decide (area > max_area.getD 0) then
      Option.none
    else some ⟨⟨p.1.raw_label, cal⟩, p.2, area⟩))

/-- Counterexample to C1 as stated: a segment with raw confidence `0.75` and
area `900 < 1000` is kept by the code (`0.75 ≥ 0.7`, and the threshold is
compared against the raw value), while the claimed calibrate-then-filter
stage computes `0.75 · 0.7 = 0.525 < 0.7` and drops it (for the empty
biased-class list; any other list only multiplies by a further `0.6`, so the
segment is dropped for every choice of the fixed list). -/
theorem filter_no_calibration_counterexample :
    filter_segments [⟨lbl ("dog"), 0.75⟩] [⟨0, 0, 30, 30⟩] 0.7 500 Option.none
        = [⟨⟨lbl ("dog"), 0.75⟩, ⟨0, 0, 30, 30⟩, 900⟩]
      ∧ filter_calibrate_spec [] [⟨lbl ("dog"), 0.75⟩] [⟨0, 0, 30, 30⟩]
          0.7 500 Option.none = [] := by
  constructor <;> decide

/-- C1 (amended): no calibration is applied anywhere — the filter compares
the segment's raw confidence against the threshold, and every surviving
segment carries its raw classification (label and confidence) unchanged,
with `area = w·h`. -/
theorem filter_applies_threshold_to_raw_confidence
    (classifications : List Classification) (bboxes : List Box)
    (ct minA : ℚ) (maxA : Option ℚ) (d : FilteredDet)
    (hd : d ∈ filter_segments classifications bboxes ct minA maxA) :
    ct ≤ d.cls.confidence
      ∧ (d.cls, d.bbox) ∈ classifications.zip bboxes
      ∧ d.area = d.bbox.w * d.bbox.h := by
  rw [filter_segments_eq] at hd
  obtain ⟨p, hp, rfl⟩ := List.mem_map.mp hd
  have hkeep := List.of_mem_filter hp
  have hmem := List.mem_of_mem_filter hp
  simp only [keepSegment, Bool.and_eq_true, decide_eq_true_eq] at hkeep
  exact ⟨hkeep.1.1, hmem, rfl⟩

/-- Helper: with no candidate labels, `map_label` never consults the
classifier — its result is the same for every classifier. -/
theorem map_label_no_candidates (u : Bool) (f : Classifier) (c : ZSCache)
    (raw : Label) (thr conf : ℚ) :
    map_label u f c raw [] thr conf
      = map_label u (fun _ _ => Except.error ()) c raw [] thr conf := by
  simp [map_label, mapLabelZeroShotStep]

/-- C5 (amended): when some candidate is a case-insensitive substring of the
raw label (the code checks only this direction, not the reverse) and the
confidence exceeds `0.8`, `map_label` returns the first such candidate with
method `direct_match` and `mapping_confidence` equal to the raw confidence,
before consulting the synonym table or the classifier (the result and the
untouched cache are the same for every classifier). -/
theorem direct_match_returns_first_contained_candidate
    (use_zs : Bool) (f : Classifier) (cache : ZSCache) (raw : Label)
    (cands : List Label) (thr conf : ℚ) (c : Label) (cs : List Label)
    (hfilter : cands.filter (fun l => containsSub (lowerStr l) (lowerStr raw))
        = c :: cs)
    (hconf : conf > 0.8) :
    (map_label use_zs f cache raw cands thr conf).1.final_label = c
      ∧ (map_label use_zs f cache raw cands thr conf).1.mapping_method
          = MappingMethod.direct_match
      ∧ (map_label use_zs f cache raw cands thr conf).1.mapping_confidence = conf
      ∧ (map_label use_zs f cache raw cands thr conf).1.reason
          = some MappingReason.highConfidenceDirectMatch
      ∧ (map_label use_zs f cache raw cands thr conf).2 = cache := by
  have hisE : cands.isEmpty = false := by
    cases cands
    · simp at hfilter
    · rfl
  simp [map_label, hfilter, hisE, hconf]

/-- Witness for C5's amended theorem at the spec's direct-match example. -/
theorem direct_match_returns_first_contained_candidate_witness :
    (map_label true (fun _ _ => Except.error ()) [] (lbl ("red sports car"))
        [lbl ("car"), lbl ("tree")] 0.5 0.95).1.final_label = lbl ("car")
      ∧ (map_label true (fun _ _ => Except.error ()) [] (lbl ("red sports car"))
          [lbl ("car"), lbl ("tree")] 0.5 0.95).1.mapping_method
          = MappingMethod.direct_match
      ∧ (map_label true (fun _ _ => Except.error ()) [] (lbl ("red sports car"))
          [lbl ("car"), lbl ("tree")] 0.5 0.95).1.mapping_confidence = 0.95
      ∧ (map_label true (fun _ _ => Except.error ()) [] (lbl ("red sports car"))
          [lbl ("car"), lbl ("tree")] 0.5 0.95).1.reason
          = some MappingReason.highConfidenceDirectMatch
      ∧ (map_label true (fun _ _ => Except.error ()) [] (lbl ("red sports car"))
          [lbl ("car"), lbl ("tree")] 0.5 0.95).2 = [] :=
  direct_match_returns_first_contained_candidate true (fun _ _ => Except.error ())
    [] (lbl ("red sports car")) [lbl ("car"), lbl ("tree")] 0.5 0.95
    (lbl ("car")) [] (by decide) (by decide)

/-- Counterexample to C5 as stated: the raw label `"car"` is a
case-insensitive substring of the candidate `"racecar"` and the confidence
`0.9` exceeds `0.8`, so the claim requires a `direct_match` on `"racecar"`;
the code checks only the candidate-inside-raw-label direction, finds no
match, and resolves to the raw label with method `none`. -/
theorem direct_match_not_symmetric_counterexample :
    containsSub (lowerStr (lbl ("car"))) (lowerStr (lbl ("racecar"))) = true
      ∧ (map_label true (fun _ _ => Except.error ()) [] (lbl ("car"))
          [lbl ("racecar")] 0.5 0.9).1.final_label = lbl ("car")
      ∧ (map_label true (fun _ _ => Except.error ()) [] (lbl ("car"))
          [lbl ("racecar")] 0.5 0.9).1.mapping_method = MappingMethod.none := by
  refine ⟨by decide, by decide, by decide⟩

/-- C6 (amended): for every entry `(C, S)` of the synonym table, resolving
`C` with no candidate labels yields `C` itself, and resolving any `s ∈ S`
yields `C` with method `synonym` and `mapping_confidence = 1.0` — except for
`'bike'` under `'motorcycle'`: `'bike'` is also a synonym of `'bicycle'`,
whose later write wins in the reverse mapping, so `'bike'` resolves to
`'bicycle'` (still with method `synonym`). -/
theorem synonym_table_resolves (f : Classifier) :
    ∀ p ∈ SYNONYM_MAPPINGS,
      (map_label true f [] p.1 [] 0.5 1).1.final_label = p.1
        ∧ ∀ s ∈ p.2, (p.1, s) ≠ (lbl ("motorcycle"), lbl ("bike")) →
            (map_label true f [] s [] 0.5 1).1.final_label = p.1
              ∧ (map_label true f [] s [] 0.5 1).1.mapping_method
                  = MappingMethod.synonym
              ∧ (map_label true f [] s [] 0.5 1).1.mapping_confidence = 1 := by
  simp only [map_label_no_candidates]
  decide

/-- Witness for C6's amended theorem at the `dog`/`puppy` entry. -/
theorem synonym_table_resolves_witness :
    (map_label true (fun _ _ => Except.error ()) [] (lbl ("puppy")) [] 0.5
        1).1.final_label = lbl ("dog")
      ∧ (map_label true (fun _ _ => Except.error ()) [] (lbl ("puppy")) [] 0.5
          1).1.mapping_method = MappingMethod.synonym
      ∧ (map_label true (fun _ _ => Except.error ()) [] (lbl ("puppy")) [] 0.5
          1).1.mapping_confidence = 1 :=
  (synonym_table_resolves (fun _ _ => Except.error ())
      (lbl ("dog"), [lbl ("puppy"), lbl ("canine"), lbl ("hound"), lbl ("mutt")])
      (by decide)).2 (lbl ("puppy")) (by decide) (by decide)

/-- Counterexample to C6 as stated: `'bike'` is listed as a synonym of
`'motorcycle'`, but resolving `'bike'` yields `'bicycle'`, because
`build_reverse_mapping` lets the later `'bicycle'` entry overwrite the
`'bike'` key. -/
theorem synonym_bike_counterexample :
    (lbl ("motorcycle"), [lbl ("bike"), lbl ("motorbike"), lbl ("scooter")])
        ∈ SYNONYM_MAPPINGS
      ∧ lbl ("bike") ∈ [lbl ("bike"), lbl ("motorbike"), lbl ("scooter")]
      ∧ (map_label true (fun _ _ => Except.error ()) [] (lbl ("bike")) [] 0.5
          1).1.final_label = lbl ("bicycle")
      ∧ lbl ("bicycle") ≠ lbl ("motorcycle") := by
  refine ⟨by decide, by decide, by decide, by decide⟩

/-- C7: given that the direct-match and synonym rules fall through (no
candidate is contained in the raw label or the confidence is not above
`0.8`; the synonym map returns the raw label), a cache miss, and a
classifier returning the ranked list headed by `(l, s)` — the zero-shot
branch runs exactly when candidates are given and the confidence is below
`0.9` (observable as the `zero_shot_mapped` key being set); when it runs,
the top pair is adopted with method `zero_shot` exactly when
`s ≥ mapping_threshold` and (`s > conf + 0.1` or `conf < 0.6`), the raw
label is kept otherwise with the corresponding reason; and when the
confidence is at least `0.9` the raw label is kept with the
too-confident-for-mapping reason. -/
theorem zero_shot_fallback_policy (f : Classifier) (cache : ZSCache)
    (raw : Label) (cands : List Label) (thr conf : ℚ) (l : Label) (s : ℚ)
    (rest : List (Label × ℚ))
    (hnodirect : cands.filter
          (fun c => containsSub (lowerStr c) (lowerStr raw)) = []
        ∨ ¬conf > 0.8)
    (hsyn : map_synonym raw = raw)
    (hmiss : cacheFind cache (raw, cands) = Option.none)
    (hf : f raw cands = Except.ok ((l, s) :: rest)) :
    ((map_label true f cache raw cands thr conf).1.zero_shot_mapped
        ≠ Option.none ↔ (cands ≠ [] ∧ conf < 0.9))
      ∧ (cands ≠ [] → conf < 0.9 →
          (map_label true f cache raw cands thr conf).1.final_label
              = (if s ≥ thr ∧ (s > conf + 0.1 ∨ conf < 0.6) then l else raw)
            ∧ (map_label true f cache raw cands thr conf).1.mapping_method
              = (if s ≥ thr ∧ (s > conf + 0.1 ∨ conf < 0.6) then
                  MappingMethod.zero_shot
                else MappingMethod.none)
            ∧ (s ≥ thr ∧ (s > conf + 0.1 ∨ conf < 0.6) →
                (map_label true f cache raw cands thr conf).1.mapping_confidence = s
                  ∧ (map_label true f cache raw cands thr conf).1.reason
                    = some MappingReason.beneficialZeroShotMapping)
            ∧ (¬s ≥ thr →
                (map_label true f cache raw cands thr conf).1.reason
                  = some (MappingReason.mappingConfidenceTooLow s))
            ∧ (s ≥ thr → ¬(s > conf + 0.1 ∨ conf < 0.6) →
                (map_label true f cache raw cands thr conf).1.reason
                  = some MappingReason.originalMoreConfident))
      ∧ (cands ≠ [] → ¬conf < 0.9 →
          (map_label true f cache raw cands thr conf).1.final_label = raw
            ∧ (map_label true f cache raw cands thr conf).1.mapping_method
                = MappingMethod.none
            ∧ (map_label true f cache raw cands thr conf).1.reason
                = some MappingReason.tooConfidentForMapping) := by
  have hnd : ¬((∃ x ∈ cands, containsSub (lowerStr x) (lowerStr raw) = true)
      ∧ 0.8 < conf) := by
    rcases hnodirect with h | h
    · rintro ⟨⟨x, hx, hsub⟩, -⟩
      have hxm : x ∈ cands.filter
          (fun c => containsSub (lowerStr c) (lowerStr raw)) :=
        List.mem_filter.mpr ⟨hx, hsub⟩
      rw [h] at hxm
      exact absurd hxm (List.not_mem_nil x)
    · exact fun hh => h hh.2
  by_cases hc : cands = []
  · subst hc
    simp [map_label, mapLabelZeroShotStep, hsyn]
  · have hisE : cands.isEmpty = false := by
      cases cands
      · exact absurd rfl hc
      · rfl
    by_cases h9 : conf < 0.9
    · by_cases hthr : s ≥ thr
      · by_cases hcond2 : s > conf + 0.1 ∨ conf < 0.6
        · simp [map_label, mapLabelZeroShotStep, zero_shot_map, hnd, hsyn,
            hmiss, hf, hisE, h9, hthr, hcond2, hc]
        · simp [map_label, mapLabelZeroShotStep, zero_shot_map, hnd, hsyn,
            hmiss, hf, hisE, h9, hthr, hcond2, hc]
      · simp [map_label, mapLabelZeroShotStep, zero_shot_map, hnd, hsyn,
          hmiss, hf, hisE, h9, hthr, hc]
    · simp [map_label, mapLabelZeroShotStep, zero_shot_map, hnd, hsyn,
        hmiss, hf, hisE, h9, hc]

/-- Witness for C7 on a concrete run: raw label `"zebra"`, candidate
`"cat"`, top score `0.7`, threshold `0.5`, confidence `0.5` — the fallback
runs and adopts the top pair. -/
theorem zero_shot_fallback_policy_witness :
    ((map_label true (fun _ _ => Except.ok [(lbl ("cat"), 0.7)]) []
          (lbl ("zebra")) [lbl ("cat")] 0.5 0.5).1.zero_shot_mapped
        ≠ Option.none ↔ ([lbl ("cat")] ≠ [] ∧ (0.5 : ℚ) < 0.9))
      ∧ (map_label true (fun _ _ => Except.ok [(lbl ("cat"), 0.7)]) []
          (lbl ("zebra")) [lbl ("cat")] 0.5 0.5).1.final_label
          = (if (0.7 : ℚ) ≥ 0.5 ∧ ((0.7 : ℚ) > 0.5 + 0.1 ∨ (0.5 : ℚ) < 0.6)
            then lbl ("cat") else lbl ("zebra")) := by
  have h := zero_shot_fallback_policy
    (fun _ _ => Except.ok [(lbl ("cat"), 0.7)]) [] (lbl ("zebra"))
    [lbl ("cat")] 0.5 0.5 (lbl ("cat")) 0.7 []
    (Or.inl (by decide)) (by decide) rfl rfl
  exact ⟨h.1, (h.2.1 (by decide) (by norm_num)).1⟩

/-- C8 (amended): a classifier failure is caught inside `zero_shot_map`
(the embedding returns a plain result, never an exception), the canonical
label equals the raw label and the cache is left untouched — but when the
zero-shot branch accepts the degraded `(raw_label, 1.0)` result (which it
does whenever it runs and `1.0 ≥ mapping_threshold`, since `conf < 0.9`
makes `1.0 > conf + 0.1` hold), the mapping method is reported as
`zero_shot` with `mapping_confidence = 1.0`, not `none`. -/
theorem classifier_failure_degrades_to_raw_label (f : Classifier)
    (cache : ZSCache) (raw : Label) (cands : List Label) (thr conf : ℚ)
    (hnodirect : cands.filter
          (fun c => containsSub (lowerStr c) (lowerStr raw)) = []
        ∨ ¬conf > 0.8)
    (hsyn : map_synonym raw = raw)
    (hmiss : cacheFind cache (raw, cands) = Option.none)
    (hf : f raw cands = Except.error ()) :
    (map_label true f cache raw cands thr conf).1.final_label = raw
      ∧ (map_label true f cache raw cands thr conf).2 = cache
      ∧ ((map_label true f cache raw cands thr conf).1.mapping_method
          = MappingMethod.zero_shot
          ↔ (cands ≠ [] ∧ conf < 0.9 ∧ (1 : ℚ) ≥ thr
              ∧ ((1 : ℚ) > conf + 0.1 ∨ conf < 0.6)))
      ∧ (cands ≠ [] → conf < 0.9 →
          (map_label true f cache raw cands thr conf).1.mapping_method
              = MappingMethod.zero_shot →
            (map_label true f cache raw cands thr conf).1.mapping_confidence
              = 1) := by
  have hnd : ¬((∃ x ∈ cands, containsSub (lowerStr x) (lowerStr raw) = true)
      ∧ 0.8 < conf) := by
    rcases hnodirect with h | h
    · rintro ⟨⟨x, hx, hsub⟩, -⟩
      have hxm : x ∈ cands.filter
          (fun c => containsSub (lowerStr c) (lowerStr raw)) :=
        List.mem_filter.mpr ⟨hx, hsub⟩
      rw [h] at hxm
      exact absurd hxm (List.not_mem_nil x)
    · exact fun hh => h hh.2
  by_cases hc : cands = []
  · subst hc
    simp [map_label, mapLabelZeroShotStep, hsyn]
  · have hisE : cands.isEmpty = false := by
      cases cands
      · exact absurd rfl hc
      · rfl
    by_cases h9 : conf < 0.9
    · by_cases hthr : (1 : ℚ) ≥ thr
      · by_cases hcond2 : (1 : ℚ) > conf + 0.1 ∨ conf < 0.6
        · simp [map_label, mapLabelZeroShotStep, zero_shot_map, hnd, hsyn,
            hmiss, hf, hisE, h9, hthr, hcond2, hc]
        · simp [map_label, mapLabelZeroShotStep, zero_shot_map, hnd, hsyn,
            hmiss, hf, hisE, h9, hthr, hcond2, hc]
      · simp [map_label, mapLabelZeroShotStep, zero_shot_map, hnd, hsyn,
          hmiss, hf, hisE, h9, hthr, hc]
    · simp [map_label, mapLabelZeroShotStep, zero_shot_map, hnd, hsyn,
        hmiss, hf, hisE, h9, hc]

/-- Witness for C8's amended theorem on a concrete failing run. -/
theorem classifier_failure_degrades_to_raw_label_witness :
    (map_label true (fun _ _ => Except.error ()) [] (lbl ("zebra"))
        [lbl ("giraffe")] 0.5 0.5).1.final_label = lbl ("zebra")
      ∧ (map_label true (fun _ _ => Except.error ()) [] (lbl ("zebra"))
          [lbl ("giraffe")] 0.5 0.5).2 = [] := by
  have h := classifier_failure_degrades_to_raw_label
    (fun _ _ => Except.error ()) [] (lbl ("zebra")) [lbl ("giraffe")] 0.5 0.5
    (Or.inl (by decide)) (by decide) rfl rfl
  exact ⟨h.1, h.2.1⟩

/-- Counterexample to C8 as stated: on a classifier failure for raw label
`"zebra"` with candidate `"giraffe"`, threshold `0.5`, confidence `0.5`,
the result keeps the raw label but reports method `zero_shot` (with
confidence `1.0` and the beneficial-mapping reason), not the claimed
`none`. -/
theorem classifier_failure_method_counterexample :
    (map_label true (fun _ _ => Except.error ()) [] (lbl ("zebra"))
        [lbl ("giraffe")] 0.5 0.5).1.mapping_method = MappingMethod.zero_shot
      ∧ MappingMethod.zero_shot ≠ MappingMethod.none
      ∧ (map_label true (fun _ _ => Except.error ()) [] (lbl ("zebra"))
          [lbl ("giraffe")] 0.5 0.5).1.final_label = lbl ("zebra")
      ∧ (map_label true (fun _ _ => Except.error ()) [] (lbl ("zebra"))
          [lbl ("giraffe")] 0.5 0.5).1.mapping_confidence = 1 := by
  refine ⟨by decide, by decide, by decide, by decide⟩

/-- Projection of the overall quality score (the unrounded
`quality_metrics['overall_score']`) from a quality report. -/
def qualityScoreOf : QualityReport → ℚ
  | .noDetections => 0
  | .report _ _ qm _ _ _ => qm.overall_score

/-- Projection of the `overall_quality` level from a quality report. -/
def qualityLevelOf : QualityReport → Option QualityLevel
  | .noDetections => Option.none
  | .report lvl _ _ _ _ _ => some lvl

/-- A minimal resolved detection for concrete quality-assessment inputs. -/
def mkMappedDet (label : Label) (conf : ℚ) : MappedDet :=
  ⟨⟨⟨label, conf⟩, ⟨0, 0, 30, 30⟩, 900⟩, label, .none, conf, false,
    .noMappingNeeded,
    ⟨label, Option.none, Option.none, label, .none, conf, false, Option.none,
      Option.none⟩⟩

/-- The spec's quality-score example: 10 resolved detections, 8 of them with
confidence above `0.8`, spread across 2 classes. -/
def exampleTenDetections : List MappedDet :=
  List.replicate 8 (mkMappedDet (lbl ("cat")) 0.9)
    ++ List.replicate 2 (mkMappedDet (lbl ("dog")) 0.5)

/-- C9: for every nonempty detection list the quality assessor's overall
score is `0.4·(fraction with confidence > 0.8) + 0.3·min(1, n/20) +
0.3·(1 − min(1, numClasses/10))`, a value in `[0, 1]`, with level
`EXCELLENT` above `0.8`, `GOOD` above `0.6`, `FAIR` above `0.4`, else
`POOR`; on the spec's ten-detection example the score is `0.71` and the
level `GOOD`. -/
theorem quality_score_formula_and_levels (detections : List MappedDet)
    (hne : detections ≠ []) :
    qualityScoreOf (generate_quality_flags detections)
        = 0.4 * ((((detections.map (fun d => d.base.cls.confidence)).filter
                (fun c => decide (c > 0.8))).length : ℚ) / detections.length)
          + 0.3 * min 1 ((detections.length : ℚ) / 20)
          + 0.3 * (1 - min 1
              (((countsOf (detections.map classKey)).length : ℚ) / 10))
      ∧ 0 ≤ qualityScoreOf (generate_quality_flags detections)
      ∧ qualityScoreOf (generate_quality_flags detections) ≤ 1
      ∧ qualityLevelOf (generate_quality_flags detections)
          = some (if qualityScoreOf (generate_quality_flags detections) > 0.8
              then QualityLevel.EXCELLENT
              else if qualityScoreOf (generate_quality_flags detections) > 0.6
              then QualityLevel.GOOD
              else if qualityScoreOf (generate_quality_flags detections) > 0.4
              then QualityLevel.FAIR
              else QualityLevel.POOR)
      ∧ qualityScoreOf (generate_quality_flags exampleTenDetections) = 0.71
      ∧ qualityLevelOf (generate_quality_flags exampleTenDetections)
          = some QualityLevel.GOOD := by
  have hisE : detections.isEmpty = false := by
    cases detections
    · exact absurd rfl hne
    · rfl
  have hlen : 0 < detections.length := by
    cases detections
    · exact absurd rfl hne
    · exact Nat.succ_pos _
  have hscore : qualityScoreOf (generate_quality_flags detections)
      = 0.4 * ((((detections.map (fun d => d.base.cls.confidence)).filter
            (fun c => decide (c > 0.8))).length : ℚ) / detections.length)
        + 0.3 * min 1 ((detections.length : ℚ) / 20)
        + 0.3 * (1 - min 1
            (((countsOf (detections.map classKey)).length : ℚ) / 10)) := by
    simp only [generate_quality_flags, hisE, Bool.false_eq_true, if_false,
      qualityScoreOf, confDistributionOf, List.length_map]
    ring
  have ha0 : (0 : ℚ) ≤ (((detections.map (fun d => d.base.cls.confidence)).filter
      (fun c => decide (c > 0.8))).length : ℚ) / detections.length :=
    div_nonneg (Nat.cast_nonneg _) (Nat.cast_nonneg _)
  have ha1 : (((detections.map (fun d => d.base.cls.confidence)).filter
      (fun c => decide (c > 0.8))).length : ℚ) / detections.length ≤ 1 := by
    rw [div_le_one (by exact_mod_cast hlen)]
    exact_mod_cast (List.length_filter_le _ _).trans
      (le_of_eq (List.length_map _ _))
  have hb0 : (0 : ℚ) ≤ min 1 ((detections.length : ℚ) / 20) :=
    le_min zero_le_one (div_nonneg (Nat.cast_nonneg _) (by norm_num))
  have hb1 : min 1 ((detections.length : ℚ) / 20) ≤ 1 := min_le_left _ _
  have hc0 : (0 : ℚ) ≤ min 1
      (((countsOf (detections.map classKey)).length : ℚ) / 10) :=
    le_min zero_le_one (div_nonneg (Nat.cast_nonneg _) (by norm_num))
  have hc1 : min 1 (((countsOf (detections.map classKey)).length : ℚ) / 10) ≤ 1 :=
    min_le_left _ _
  refine ⟨hscore, ?_, ?_, ?_, ?_, ?_⟩
  · rw [hscore]; linarith
  · rw [hscore]; linarith
  · simp only [generate_quality_flags, hisE, Bool.false_eq_true, if_false,
      qualityLevelOf, qualityScoreOf]
  · decide
  · decide

/-- Witness for C9 at the spec's ten-detection example. -/
theorem quality_score_formula_and_levels_witness :
    qualityScoreOf (generate_quality_flags exampleTenDetections)
        = 0.4 * ((((exampleTenDetections.map (fun d => d.base.cls.confidence)).filter
                (fun c => decide (c > 0.8))).length : ℚ)
              / exampleTenDetections.length)
          + 0.3 * min 1 ((exampleTenDetections.length : ℚ) / 20)
          + 0.3 * (1 - min 1
              (((countsOf (exampleTenDetections.map classKey)).length : ℚ) / 10))
      ∧ qualityScoreOf (generate_quality_flags exampleTenDetections) = 0.71 :=
  ⟨(quality_score_formula_and_levels exampleTenDetections (by decide)).1,
    (quality_score_formula_and_levels exampleTenDetections (by decide)).2.2.2.2.1⟩

/-- The pure value of one zero-shot classification: what `zero_shot_map`
computes on a cache miss (raised exceptions and empty rankings degrade to
the raw label with confidence `1.0`). -/
def pureZS (f : Classifier) (raw : Label) (cands : List Label) : ZSResult :=
  match f raw cands with
  | .error _ => ⟨raw, 1, Option.none⟩
  | .ok [] => ⟨raw, 1, Option.none⟩
  | .ok ((l, s) :: rest) => ⟨l, s, some ((l, s) :: rest)⟩

/-- A cache is consistent with a (deterministic) classifier when every
stored entry is the classifier's own answer for its key. -/
def CacheConsistent (f : Classifier) (c : ZSCache) : Prop :=
  ∀ k r, cacheFind c k = some r → r = pureZS f k.1 k.2

/-- Helper: lookup after store. -/
theorem cacheFind_insert (c : ZSCache) (k : Label × List Label) (r : ZSResult)
    (k' : Label × List Label) :
    cacheFind (cacheInsert c k r) k'
      = if k' = k then some r else cacheFind c k' := by
  induction c with
  | nil =>
    simp only [cacheInsert, cacheFind]
    by_cases h : k = k'
    · rw [if_pos h, if_pos h.symm]
    · rw [if_neg h, if_neg (fun hh => h hh.symm)]
  | cons p rest ih =>
    obtain ⟨k0, r0⟩ := p
    simp only [cacheInsert]
    by_cases h0 : k0 = k
    · rw [if_pos h0]
      simp only [cacheFind]
      by_cases h1 : k0 = k'
      · rw [if_pos h1, if_pos (h1.symm.trans h0)]
      · rw [if_neg h1, if_neg (fun hh => h1 (h0.trans hh.symm)), if_neg h1]
    · rw [if_neg h0]
      simp only [cacheFind]
      by_cases h1 : k0 = k'
      · rw [if_pos h1, if_neg (fun hh => h0 (h1.trans hh)), if_pos h1]
      · rw [if_neg h1, ih, if_neg h1]

/-- Helper: `zero_shot_map` on a consistent cache returns the pure value
(the raw-label default when zero-shot is disabled) and leaves the cache
consistent. -/
theorem zero_shot_map_consistent (u : Bool) (f : Classifier) (c : ZSCache)
    (raw : Label) (cands : List Label) (h : CacheConsistent f c) :
    (zero_shot_map u f c raw cands).1
        = (if u then pureZS f raw cands else ⟨raw, 1, Option.none⟩)
      ∧ CacheConsistent f (zero_shot_map u f c raw cands).2 := by
  cases u with
  | false => exact ⟨by simp [zero_shot_map], by simpa [zero_shot_map] using h⟩
  | true =>
    simp only [zero_shot_map, Bool.not_true, Bool.false_eq_true, if_false,
      if_true]
    cases hfind : cacheFind c (raw, cands) with
    | some r =>
      exact ⟨h _ _ hfind, by simpa using h⟩
    | none =>
      cases hf : f raw cands with
      | error e =>
        exact ⟨by simp [pureZS, hf], by simpa using h⟩
      | ok lst =>
        cases lst with
        | nil => exact ⟨by simp [pureZS, hf], by simpa using h⟩
        | cons p rest =>
          obtain ⟨l, s⟩ := p
          refine ⟨by simp [pureZS, hf], ?_⟩
          intro k r hkr
          simp only [cacheFind_insert] at hkr
          split at hkr
          · rename_i hk
            subst hk
            simp only [Option.some.injEq] at hkr
            subst hkr
            simp [pureZS, hf]
          · exact h _ _ hkr

/-- Helper: the zero-shot step gives the same result record on any two
consistent caches and leaves a consistent cache behind. -/
theorem mapLabelZeroShotStep_consistent (u : Bool) (f : Classifier)
    (c c' : ZSCache) (raw : Label) (cands : List Label) (thr conf : ℚ)
    (res : MapResult) (h : CacheConsistent f c) (h' : CacheConsistent f c') :
    (mapLabelZeroShotStep u f c raw cands thr conf res).1
        = (mapLabelZeroShotStep u f c' raw cands thr conf res).1
      ∧ CacheConsistent f (mapLabelZeroShotStep u f c raw cands thr conf res).2 := by
  have hz := zero_shot_map_consistent u f c raw cands h
  have hz' := zero_shot_map_consistent u f c' raw cands h'
  simp only [mapLabelZeroShotStep]
  by_cases hc : (cands.isEmpty || !u) = true
  · rw [if_pos hc, if_pos hc]
    exact ⟨rfl, h⟩
  · rw [if_neg hc, if_neg hc]
    by_cases h9 : conf < 0.9
    · rw [if_pos h9, if_pos h9, hz.1, hz'.1]
      refine ⟨by split_ifs <;> rfl, ?_⟩
      split_ifs <;> exact hz.2
    · rw [if_neg h9, if_neg h9]
      exact ⟨rfl, h⟩

/-- Helper: `map_label` gives the same result record on any two consistent
caches and leaves a consistent cache behind. -/
theorem map_label_consistent (u : Bool) (f : Classifier) (c c' : ZSCache)
    (raw : Label) (cands : List Label) (thr conf : ℚ)
    (h : CacheConsistent f c) (h' : CacheConsistent f c') :
    (map_label u f c raw cands thr conf).1
        = (map_label u f c' raw cands thr conf).1
      ∧ CacheConsistent f (map_label u f c raw cands thr conf).2 := by
  simp only [map_label]
  by_cases h1 : (!cands.isEmpty
      && !(cands.filter (fun l => containsSub (lowerStr l) (lowerStr raw))).isEmpty
      && decide (conf > 0.8)) = true
  · rw [if_pos h1, if_pos h1]
    exact ⟨rfl, h⟩
  · rw [if_neg h1, if_neg h1]
    by_cases h2 : map_synonym raw ≠ raw
    · rw [if_pos h2, if_pos h2]
      exact ⟨rfl, h⟩
    · rw [if_neg h2, if_neg h2]
      exact mapLabelZeroShotStep_consistent u f c c' raw cands thr conf _ h h'

/-- Helper: `map_labels` gives the same detections on any two consistent
caches and leaves a consistent cache behind. -/
theorem map_labels_consistent (u : Bool) (f : Classifier) :
    ∀ (dets : List FilteredDet) (cands : List Label) (thr : ℚ)
      (c c' : ZSCache), CacheConsistent f c → CacheConsistent f c' →
      (map_labels u f dets cands thr c).1 = (map_labels u f dets cands thr c').1
        ∧ CacheConsistent f (map_labels u f dets cands thr c).2 := by
  intro dets
  induction dets with
  | nil => exact fun cands thr c c' h h' => ⟨rfl, h⟩
  | cons d rest ih =>
    intro cands thr c c' h h'
    have hm := map_label_consistent u f c c' d.cls.raw_label cands thr
      d.cls.confidence h h'
    have hm' := map_label_consistent u f c' c d.cls.raw_label cands thr
      d.cls.confidence h' h
    have hrec := ih cands thr
      (map_label u f c d.cls.raw_label cands thr d.cls.confidence).2
      (map_label u f c' d.cls.raw_label cands thr d.cls.confidence).2
      hm.2 hm'.2
    simp only [map_labels]
    exact ⟨by rw [hm.1, hrec.1], hrec.2⟩

/-- C10: with a fixed (deterministic) classifier, re-running the composed
pipeline on identical input — the second run starting from the memoization
cache the first run left behind — produces an identical report: every stage
is a pure function of its input, and the cache only ever replays the
classifier's own answers. -/
theorem pipeline_rerun_identical (cfg : PipelineConfig) (f : Classifier)
    (classifications : List Classification) (bboxes : List Box) :
    (runPipeline cfg f classifications bboxes
        (runPipeline cfg f classifications bboxes []).2).1
      = (runPipeline cfg f classifications bboxes []).1 := by
  have hempty : CacheConsistent f ([] : ZSCache) := by
    intro k r hkr
    simp [cacheFind] at hkr
  have h1 := map_labels_consistent cfg.use_zero_shot f
    (apply_nms (filter_segments classifications bboxes cfg.confidence_threshold
      cfg.min_area cfg.max_area) cfg.iou_threshold)
    cfg.candidate_labels cfg.mapping_threshold [] [] hempty hempty
  have h2 := map_labels_consistent cfg.use_zero_shot f
    (apply_nms (filter_segments classifications bboxes cfg.confidence_threshold
      cfg.min_area cfg.max_area) cfg.iou_threshold)
    cfg.candidate_labels cfg.mapping_threshold
    (map_labels cfg.use_zero_shot f
      (apply_nms (filter_segments classifications bboxes cfg.confidence_threshold
        cfg.min_area cfg.max_area) cfg.iou_threshold)
      cfg.candidate_labels cfg.mapping_threshold []).2 [] h1.2 hempty
  simp only [runPipeline]
  rw [h2.1]

/-- Witness for C1's amended theorem at a concrete kept segment. -/
theorem filter_applies_threshold_to_raw_confidence_witness :
    (0.7 : ℚ) ≤ (⟨⟨lbl ("dog"), 0.75⟩, ⟨0, 0, 30, 30⟩, 900⟩ : FilteredDet).cls.confidence
      ∧ ((⟨⟨lbl ("dog"), 0.75⟩, ⟨0, 0, 30, 30⟩, 900⟩ : FilteredDet).cls,
          (⟨⟨lbl ("dog"), 0.75⟩, ⟨0, 0, 30, 30⟩, 900⟩ : FilteredDet).bbox)
          ∈ [(⟨lbl ("dog"), 0.75⟩ : Classification)].zip [(⟨0, 0, 30, 30⟩ : Box)]
      ∧ (⟨⟨lbl ("dog"), 0.75⟩, ⟨0, 0, 30, 30⟩, 900⟩ : FilteredDet).area
          = (⟨⟨lbl ("dog"), 0.75⟩, ⟨0, 0, 30, 30⟩, 900⟩ : FilteredDet).bbox.w
            * (⟨⟨lbl ("dog"), 0.75⟩, ⟨0, 0, 30, 30⟩, 900⟩ : FilteredDet).bbox.h :=
  filter_applies_threshold_to_raw_confidence
    [⟨lbl ("dog"), 0.75⟩] [⟨0, 0, 30, 30⟩] 0.7 500 Option.none
    ⟨⟨lbl ("dog"), 0.75⟩, ⟨0, 0, 30, 30⟩, 900⟩ (by decide)
